import Mathlib

/-!
# ProjectPing dashboard core — shallow embedding

A shallow embedding of the schema-normalization / latest-state-reduction
core of `src/app.py` (ProjectPing dashboard), together with theorems
checking the natural-language specification against it.

Modelling conventions:
* A cell of the tabular data source is `Option String` (`none` models a
  missing value / pandas `NaN`).
* A raw row is a `List Cell` indexed by column position; a normalized row
  (`NRow`) additionally carries the derived `__Timestamp__` column as an
  `Option Nat` (`none` models `NaT`); instants are seconds since an epoch.
* Date-time parsing is delegated by the program to the external pandas
  library (`pd.to_datetime(..., errors="coerce")`), so it enters the
  embedding as an abstract cellwise function `parse : Cell → Option Nat`;
  likewise the per-row Date+Time combination of `build_timestamp`'s second
  strategy is an abstract `combine : Cell → Cell → Option Nat`.
-/

namespace ProjectPing

/-! ## Header normalization (`norm`, src/app.py lines 16-20) -/

/-- The separator class of the regex `[\s\-\./]+` in `norm`:
whitespace, hyphen, dot, slash. -/
def isSep (c : Char) : Bool :=
  c = ' ' || c = '\t' || c = '\n' || c = '\r' || c = '\x0b' || c = '\x0c' ||
  c = '-' || c = '.' || c = '/'

/-- Whitespace stripped by Python's `str.strip()`. -/
def isWs (c : Char) : Bool :=
  c = ' ' || c = '\t' || c = '\n' || c = '\r' || c = '\x0b' || c = '\x0c'

/-- `str.strip()`: drop whitespace from both ends. -/
def trimChars (l : List Char) : List Char :=
  ((l.dropWhile isWs).reverse.dropWhile isWs).reverse

/-- `re.sub(r"[\s\-\./]+", "_", s)`: replace each maximal run of separator
characters by a single underscore.  The boolean argument records whether the
previous character belonged to a separator run. -/
def collapseSeps : Bool → List Char → List Char
  | _, [] => []
  | prev, c :: rest =>
    if isSep c then
      if prev then collapseSeps true rest else '_' :: collapseSeps true rest
    else c :: collapseSeps false rest

/-- `norm` (src/app.py lines 16-20): strip, lowercase, collapse separator
runs to `_`. -/
def norm (s : String) : String :=
  ⟨collapseSeps false ((trimChars s.data).map Char.toLower)⟩

/-! ## Column resolution (`find_col`, src/app.py lines 22-37) -/

/-- Insertion into the Python dict comprehension
`{norm(c): c for c in df.columns}`: a repeated key keeps its original
position but takes the latest value. -/
def dictInsert (d : List (String × String)) (k v : String) :
    List (String × String) :=
  if d.any (fun p => p.1 = k) then
    d.map (fun p => if p.1 = k then (k, v) else p)
  else d ++ [(k, v)]

/-- The `normalized` dict of `find_col`, in insertion order. -/
def normalizedDict (cols : List String) : List (String × String) :=
  cols.foldl (fun d c => dictInsert d (norm c) c) []

/-- Python's substring test `key in k`, on character lists. -/
def containsSub (key : List Char) : List Char → Bool
  | [] => key.isEmpty
  | c :: rest => key.isPrefixOf (c :: rest) || containsSub key rest

/-- `find_col` (src/app.py lines 22-37): `None` on a column-less frame;
otherwise first an exact match of a normalized alias against the normalized
headers, then a partial pass where an alias matches a header whose
normalized form starts with, or contains, the normalized alias. -/
def find_col (cols : List String) (aliases : List String) : Option String :=
  if cols.isEmpty then none
  else
    let dict := normalizedDict cols
    match aliases.findSome? (fun a => dict.lookup (norm a)) with
    | some v => some v
    | none =>
        aliases.findSome? (fun a =>
          let key := norm a
          dict.findSome? (fun p =>
            if key.data.isPrefixOf p.1.data || containsSub key.data p.1.data
            then some p.2 else none))

/-! ## Data model -/

/-- A cell of the tabular source; `none` is a missing value (pandas `NaN`). -/
abbrev Cell := Option String

/-- A raw row, indexed by column position. -/
abbrev Row := List Cell

/-- Read the cell of a row at a column index. -/
def cellAt (r : Row) (c : Nat) : Cell := r.getD c none

/-- A normalized row: the raw cells plus the derived `__Timestamp__`
column (line 118); `none` models `NaT`. -/
structure NRow where
  cells : Row
  ts : Option Nat
deriving DecidableEq, Repr

/-! ## Timestamp building (`build_timestamp`, src/app.py lines 90-115) -/

/-- The resolved mapping of the time-related logical fields to column
indices (`col_ts`, `col_date`, `col_time`, lines 77-79). -/
structure TimeMapping where
  col_ts : Option Nat
  col_date : Option Nat
  col_time : Option Nat

/-- `pd.to_datetime(df[c], errors="coerce")`: parse a whole column
cellwise with the abstract external parser. -/
def parseCol (parse : Cell → Option Nat) (df : List Row) (c : Nat) :
    List (Option Nat) :=
  df.map (fun r => parse (cellAt r c))

/-- One iteration of the fallback scan's loop (lines 110-114): score the
column by its count of successfully parsed values
(`parsed.notna().sum()`) and take it over the best so far when
`ok > score and ok > 0`. -/
def scanStep (parse : Cell → Option Nat) (df : List Row)
    (acc : Option (List (Option Nat)) × Int) (c : Nat) :
    Option (List (Option Nat)) × Int :=
  let parsed := parseCol parse df c
  let ok : Int := parsed.countP (fun x => x.isSome)
  if acc.2 < ok ∧ 0 < ok then (some parsed, ok) else acc

/-- The fallback scan (lines 108-115): fold the loop over all columns
starting from `best = None; score = -1`; with no scoring column, every
timestamp is `NaT` (`return best if best is not None else NaT series`). -/
def fallbackScan (parse : Cell → Option Nat) (ncols : Nat) (df : List Row) :
    List (Option Nat) :=
  match ((List.range ncols).foldl (scanStep parse df) (none, -1)).1 with
  | some b => b
  | none => df.map (fun _ => none)

/-- Strategies 2-4 of `build_timestamp` (lines 96-115): Date+Time
combination when both are mapped (per-row combination by the abstract
external `combine`), the date column alone when only it is mapped,
otherwise the fallback scan. -/
def build_timestamp_rest (parse : Cell → Option Nat)
    (combine : Cell → Cell → Option Nat) (m : TimeMapping) (ncols : Nat)
    (df : List Row) : List (Option Nat) :=
  match m.col_date, m.col_time with
  | some d, some t => df.map (fun r => combine (cellAt r d) (cellAt r t))
  | some d, none => parseCol parse df d
  | none, _ => fallbackScan parse ncols df

/-- `build_timestamp` (lines 90-115): if a timestamp column is mapped and
any of its cells parses, use that column exclusively; otherwise fall
through to the remaining strategies. -/
def build_timestamp (parse : Cell → Option Nat)
    (combine : Cell → Cell → Option Nat) (m : TimeMapping) (ncols : Nat)
    (df : List Row) : List (Option Nat) :=
  match m.col_ts with
  | some c =>
      let ts := parseCol parse df c
      if ts.any (fun x => x.isSome) then ts
      else build_timestamp_rest parse combine m ncols df
  | none => build_timestamp_rest parse combine m ncols df

/-! ## Date-range resolution and window filter (lines 137-153) -/

/-- Seconds in a calendar day; instants are seconds since an epoch. -/
def daySecs : Nat := 86400

/-- The sidebar date-range choice; the `Custom` payload is the date
picker's value, two calendar dates as day numbers when a complete range
was picked. -/
inductive DateRange
  | last7Days
  | today
  | last24Hours
  | custom (c : Option (Nat × Nat))

/-- Lines 138-150: the `(start, now)` pair that feeds the mask.  In the
`Custom` branch with a complete range, `start` is midnight of the first
date and `now` is reassigned to midnight of the second date plus one day;
an incomplete pick falls back to the last 7 days. -/
def resolveWindow (now : Nat) : DateRange → Nat × Nat
  | .last7Days => (now - 7 * daySecs, now)
  | .today => (daySecs * (now / daySecs), now)
  | .last24Hours => (now - 24 * 3600, now)
  | .custom (some (c0, c1)) => (c0 * daySecs, c1 * daySecs + daySecs)
  | .custom none => (now - 7 * daySecs, now)

/-- One row's worth of `(ts >= start) & (ts <= stop)`: a comparison with
`NaT` is false. -/
def tsInWindow (start stop : Nat) : Option Nat → Bool
  | some t => decide (start ≤ t) && decide (t ≤ stop)
  | none => false

/-- Lines 152-153: `df = df.loc[mask]`, which keeps the original row
order. -/
def windowFilter (start stop : Nat) (rows : List NRow) : List NRow :=
  rows.filter (fun r => tsInWindow start stop r.ts)

/-! ## Categorical filters (lines 156-163) -/

/-- `astype(str)` on one cell: pandas renders a missing value as the
string `"nan"`. -/
def cellStr : Cell → String
  | some s => s
  | none => "nan"

/-- `str.upper()`. -/
def upperStr (s : String) : String := ⟨s.data.map Char.toUpper⟩

/-- Resolved columns of the categorical filters
(`col_project`, `col_type`, `col_status`, lines 81-85). -/
structure CatMapping where
  col_project : Option Nat
  col_type : Option Nat
  col_status : Option Nat

/-- The sidebar multiselect values (lines 129-135). -/
structure CatSelection where
  projects : List String
  device_types : List String
  statuses : List String

/-- `df[df[c].isin(vals)]`: a missing cell is in no value set. -/
def isinFilter (c : Nat) (vals : List String) (rows : List NRow) :
    List NRow :=
  rows.filter (fun r => match cellAt r.cells c with
    | some v => vals.contains v
    | none => false)

/-- Lines 156-163: each filter applies only when its column resolved and
its selection is non-empty; status comparison uppercases both sides. -/
def categoricalFilter (m : CatMapping) (sel : CatSelection)
    (rows : List NRow) : List NRow :=
  let rows1 := match m.col_project with
    | some c =>
        if sel.projects.isEmpty then rows else isinFilter c sel.projects rows
    | none => rows
  let rows2 := match m.col_type with
    | some c =>
        if sel.device_types.isEmpty then rows1
        else isinFilter c sel.device_types rows1
    | none => rows1
  match m.col_status with
  | some c =>
      if sel.statuses.isEmpty then rows2
      else rows2.filter (fun r =>
        (sel.statuses.map upperStr).contains
          (upperStr (cellStr (cellAt r.cells c))))
  | none => rows2

/-! ## Latest snapshot per device (`latest_per_device`, lines 166-176) -/

/-- The group key of a row: its cells at the key columns. -/
def keyOf (keys : List Nat) (r : NRow) : List Cell :=
  keys.map (fun c => cellAt r.cells c)

/-- `groupby` with its default `dropna=True` keeps only groups whose key
has no missing component. -/
def keyValid (k : List Cell) : Bool := k.all (fun x => x.isSome)

/-- The `sort_values("__Timestamp__")` order. -/
def tsLE (a b : NRow) : Prop := a.ts.getD 0 ≤ b.ts.getD 0

instance : DecidableRel tsLE := fun a b =>
  inferInstanceAs (Decidable (a.ts.getD 0 ≤ b.ts.getD 0))

instance : IsTotal NRow tsLE := ⟨fun x y => Nat.le_total (x.ts.getD 0) (y.ts.getD 0)⟩

instance : IsTrans NRow tsLE := ⟨fun _ _ _ => Nat.le_trans⟩

/-- `latest_per_device` (lines 166-176):
`df.sort_values("__Timestamp__").dropna(subset=["__Timestamp__"])
   .groupby(keys, as_index=False).tail(1)`.
A stable sort of the frame followed by dropping `NaT` rows equals a stable
sort of the `NaT`-free rows, so we sort the filtered rows; `tail(1)` keeps,
for every group whose key `groupby` retains (no missing component, its
default `dropna=True`), the last row of the group in sorted order. -/
def latest_per_device (keys : List Nat) (rows : List NRow) : List NRow :=
  let sorted := (rows.filter (fun r => r.ts.isSome)).insertionSort tsLE
  let ks := ((sorted.map (keyOf keys)).dedup).filter keyValid
  ks.filterMap (fun k => (sorted.filter (fun r => keyOf keys r = k)).getLast?)

/-! ## The pipeline and its fatal condition (lines 117-123, 137-178) -/

/-- §7 error taxonomy members the core can signal. -/
inductive PipelineError
  | timestampUnresolvable
deriving DecidableEq

/-- What the core hands to the presentation layer: the windowed and
categorically filtered working set, and the per-device snapshot. -/
structure PipelineOutput where
  working : List NRow
  snapshot : List NRow
deriving DecidableEq

/-- One pipeline pass (lines 117-178): build timestamps; when not one cell
of the whole frame yielded an instant, halt with the fatal signal
(`st.error` + `st.stop`, lines 120-123) before any filtering or
reduction; otherwise window-filter, categorically filter, and reduce. -/
def runPipeline (parse : Cell → Option Nat)
    (combine : Cell → Cell → Option Nat) (tm : TimeMapping)
    (cm : CatMapping) (sel : CatSelection) (keys : List Nat) (now : Nat)
    (dr : DateRange) (ncols : Nat) (df : List Row) :
    Except PipelineError PipelineOutput :=
  let ts := build_timestamp parse combine tm ncols df
  if ts.countP (fun x => x.isSome) = 0 then
    .error .timestampUnresolvable
  else
    let nrows := (df.zip ts).map (fun p => NRow.mk p.1 p.2)
    let w := resolveWindow now dr
    let working := categoricalFilter cm sel (windowFilter w.1 w.2 nrows)
    .ok ⟨working, latest_per_device keys working⟩

/-! ## Concrete stand-ins and spec-side characterizations -/

/-- A concrete stand-in for the external cellwise date-time parser, used
to exercise the embedding on closed inputs: a cell parses when it is a
non-empty string of decimal digits. -/
def natParse : Cell → Option Nat
  | some s =>
      if s.data ≠ [] ∧
          s.data.all (fun c => decide ('0' ≤ c) && decide (c ≤ '9')) then
        some (s.data.foldl (fun n c => n * 10 + (c.toNat - '0'.toNat)) 0)
      else none
  | none => none

/-- A concrete stand-in for the external per-row Date+Time combination. -/
def natCombine (d t : Cell) : Option Nat :=
  match natParse d, natParse t with
  | some a, some b => some (a * daySecs + b)
  | _, _ => none

/-- The fallback-selection contract of §4.2 step 4, stated from the
spec's words for comparison with `fallbackScan`: the output is the
cellwise parse of the column with the highest count of successfully
parsed, non-null values — an earlier column wins ties — and is all null
when no column yields any valid parse. -/
def FallbackSelects (parse : Cell → Option Nat) (ncols : Nat)
    (df : List Row) (out : List (Option Nat)) : Prop :=
  ((∀ c, c < ncols →
      (parseCol parse df c).countP (fun x => x.isSome) = 0) →
    out = df.map (fun _ => none)) ∧
  (∀ c, c < ncols →
    0 < (parseCol parse df c).countP (fun x => x.isSome) →
    ∃ b, b < ncols ∧ out = parseCol parse df b ∧
      0 < (parseCol parse df b).countP (fun x => x.isSome) ∧
      (∀ e, e < b → (parseCol parse df e).countP (fun x => x.isSome) <
        (parseCol parse df b).countP (fun x => x.isSome)) ∧
      (∀ e, e < ncols →
        (parseCol parse df e).countP (fun x => x.isSome) ≤
        (parseCol parse df b).countP (fun x => x.isSome)))

/-- The spec-side count for reduction cardinality (§8.6): the number of
distinct identity-key values among the rows with a non-null timestamp, a
missing component being a valid, distinct key value of its own. -/
def distinctKeyCount (keys : List Nat) (rows : List NRow) : Nat :=
  (((rows.filter (fun r => r.ts.isSome)).map (keyOf keys)).dedup).length

/-- The same count restricted to keys without missing components — the
groups pandas `groupby` actually retains. -/
def distinctValidKeyCount (keys : List Nat) (rows : List NRow) : Nat :=
  ((((rows.filter (fun r => r.ts.isSome)).map (keyOf keys)).dedup).filter
    keyValid).length

/-- The snapshot row the reduction holds for a given key value. -/
def snapshotRow (keys : List Nat) (rows : List NRow) (k : List Cell) :
    Option NRow :=
  (latest_per_device keys rows).find? (fun r => decide (keyOf keys r = k))

/-! ## Theorems -/

/-- C10: resolving any alias list against a dataset with zero columns
returns `none` (unresolved) rather than raising or matching anything, so
every logical field is unresolved on a column-less dataset. -/
theorem find_col_empty_headers (aliases : List String) :
    find_col [] aliases = none := rfl

/-- C7 (counterexample): `"Avg Ping (ms)"` does not normalize to the same
key as `"avg-ping-ms"` — the parentheses are not separator characters, so
it normalizes to `"avg_ping_(ms)"` — and it does not resolve against the
alias `"avg_ping_ms"` at all, neither exactly nor partially. -/
theorem norm_avg_ping_paren_mismatch :
    norm "Avg Ping (ms)" ≠ norm "avg-ping-ms" ∧
    find_col ["Avg Ping (ms)"] ["avg_ping_ms"] = none := by decide

/-- C7 (amended): `"avg-ping-ms"` and `"AVG_PING_MS"` both normalize to
the key `"avg_ping_ms"` and each resolves against the alias
`"avg_ping_ms"`, while `"Avg Ping (ms)"` normalizes to the distinct key
`"avg_ping_(ms)"` and matches that alias under neither the exact nor the
partial rule. -/
theorem norm_avg_ping_equivalence :
    norm "avg-ping-ms" = "avg_ping_ms" ∧
    norm "AVG_PING_MS" = "avg_ping_ms" ∧
    norm "Avg Ping (ms)" = "avg_ping_(ms)" ∧
    find_col ["avg-ping-ms"] ["avg_ping_ms"] = some "avg-ping-ms" ∧
    find_col ["AVG_PING_MS"] ["avg_ping_ms"] = some "AVG_PING_MS" ∧
    find_col ["Avg Ping (ms)"] ["avg_ping_ms"] = none := by decide

/-- C6: the window filter keeps exactly the rows whose timestamp is
non-null and lies in `[start, stop]`; rows with a null timestamp are never
included, and the output is a sublist of the input (original relative
order, no sorting). -/
theorem windowFilter_exact (start stop : Nat) (rows : List NRow) :
    (windowFilter start stop rows).Sublist rows ∧
    ∀ r, r ∈ windowFilter start stop rows ↔
      r ∈ rows ∧ ∃ t, r.ts = some t ∧ start ≤ t ∧ t ≤ stop := by
  refine ⟨List.filter_sublist _, fun r => ?_⟩
  rw [windowFilter, List.mem_filter]
  constructor
  · rintro ⟨hm, hw⟩
    refine ⟨hm, ?_⟩
    cases h : r.ts with
    | none => rw [h] at hw; exact absurd hw (by simp [tsInWindow])
    | some t =>
        rw [h] at hw
        simp only [tsInWindow, Bool.and_eq_true, decide_eq_true_eq] at hw
        exact ⟨t, rfl, hw.1, hw.2⟩
  · rintro ⟨hm, t, ht, h1, h2⟩
    exact ⟨hm, by simp [tsInWindow, ht, h1, h2]⟩

/-- Applying the categorical filters to a filtered list is the same as
filtering their output: every stage is a `List.filter` or the identity. -/
theorem categoricalFilter_filter (m : CatMapping) (sel : CatSelection)
    (q : NRow → Bool) (rows : List NRow) :
    categoricalFilter m sel (rows.filter q) =
      (categoricalFilter m sel rows).filter q := by
  unfold categoricalFilter isinFilter
  cases m.col_project <;> cases m.col_type <;> cases m.col_status <;>
    simp only [] <;> split_ifs <;> simp only [List.filter_filter] <;>
    first
      | rfl
      | exact List.filter_congr fun a _ => by cases q a <;> simp

/-- C9: categorical filtering and window filtering commute — applying
them in either order yields the same rows. -/
theorem filter_composition_comm (m : CatMapping) (sel : CatSelection)
    (start stop : Nat) (rows : List NRow) :
    categoricalFilter m sel (windowFilter start stop rows) =
      windowFilter start stop (categoricalFilter m sel rows) := by
  rw [windowFilter, windowFilter, categoricalFilter_filter]

/-- C5 (counterexample): for `Custom(day 0, day 1)` the mask's upper bound
is midnight of day 2 taken inclusively (`<=`), so a row timestamped
exactly at that midnight is kept — the claim's half-open interval says it
must be excluded. -/
theorem custom_window_keeps_next_midnight :
    windowFilter (resolveWindow 0 (.custom (some (0, 1)))).1
        (resolveWindow 0 (.custom (some (0, 1)))).2
        [⟨[], some (2 * daySecs)⟩] = [⟨[], some (2 * daySecs)⟩] := by decide

/-- C5 (amended): a `Custom(start, end)` window resolves to the closed
interval from start-of-day(start) to start-of-day(end) plus one day: a row
anywhere within the end calendar day (e.g. 23:59:00) is included, a row at
exactly midnight of the following day is also included, and any row
strictly after that midnight (e.g. 00:00:01) is excluded. -/
theorem custom_window_closed_interval (c0 c1 now : Nat) (h : c0 ≤ c1) :
    resolveWindow now (.custom (some (c0, c1))) =
      (c0 * daySecs, c1 * daySecs + daySecs) ∧
    windowFilter (c0 * daySecs) (c1 * daySecs + daySecs)
        [⟨[], some (c1 * daySecs + daySecs - 60)⟩,
         ⟨[], some (c1 * daySecs + daySecs)⟩,
         ⟨[], some (c1 * daySecs + daySecs + 1)⟩] =
      [⟨[], some (c1 * daySecs + daySecs - 60)⟩,
       ⟨[], some (c1 * daySecs + daySecs)⟩] := by
  refine ⟨rfl, ?_⟩
  have h1 : c0 * daySecs ≤ c1 * daySecs + daySecs - 60 := by
    simp only [daySecs]; omega
  have h2 : c1 * daySecs + daySecs - 60 ≤ c1 * daySecs + daySecs := by omega
  have h3 : c0 * daySecs ≤ c1 * daySecs + daySecs := by
    simp only [daySecs]; omega
  have h4 : ¬ (c1 * daySecs + daySecs + 1 ≤ c1 * daySecs + daySecs) := by
    omega
  simp [windowFilter, tsInWindow, List.filter, h1, h2, h3, h4]

/-- C5 (witness): the amended statement at `Custom(day 2, day 3)`. -/
theorem custom_window_closed_interval_witness :
    (2 ≤ 3 ∧
      resolveWindow 0 (.custom (some (2, 3))) =
        (2 * daySecs, 3 * daySecs + daySecs) ∧
      windowFilter (2 * daySecs) (3 * daySecs + daySecs)
          [⟨[], some (3 * daySecs + daySecs - 60)⟩,
           ⟨[], some (3 * daySecs + daySecs)⟩,
           ⟨[], some (3 * daySecs + daySecs + 1)⟩] =
        [⟨[], some (3 * daySecs + daySecs - 60)⟩,
         ⟨[], some (3 * daySecs + daySecs)⟩]) :=
  ⟨by decide, (custom_window_closed_interval 2 3 0 (by decide)).1,
    (custom_window_closed_interval 2 3 0 (by decide)).2⟩

/-- C3: when the logical timestamp field is mapped to a column and at
least one cell of that column parses, the built timestamps are exactly
the cellwise parses of that column — a cell that fails to parse yields a
null timestamp for its row and never a value from the Date+Time (or any
other) strategy, whatever `col_date`/`col_time` are mapped to. -/
theorem build_timestamp_priority (parse : Cell → Option Nat)
    (combine : Cell → Cell → Option Nat) (m : TimeMapping) (ncols : Nat)
    (df : List Row) (c : Nat) (hc : m.col_ts = some c)
    (hsome : (parseCol parse df c).any (fun x => x.isSome) = true) :
    build_timestamp parse combine m ncols df = parseCol parse df c ∧
    ∀ i (hi : i < df.length), parse (cellAt df[i] c) = none →
      (build_timestamp parse combine m ncols df)[i]? = some none := by
  have h1 : build_timestamp parse combine m ncols df =
      parseCol parse df c := by
    unfold build_timestamp
    rw [hc]
    simp [hsome]
  refine ⟨h1, fun i hi hnone => ?_⟩
  rw [h1, parseCol, List.getElem?_map, List.getElem?_eq_getElem hi]
  simp [hnone]

/-- C3 (witness): a frame whose timestamp column (index 0) parses on row 0
but not on row 1, with fully valid date (index 1) and time (index 2)
columns mapped as well; the result comes from column 0 alone and the
unparseable row stays null. -/
theorem build_timestamp_priority_witness :
    (⟨some 0, some 1, some 2⟩ : TimeMapping).col_ts = some 0 ∧
    (parseCol natParse [[some "5", some "7", some "2"],
        [some "x", some "8", some "3"]] 0).any (fun x => x.isSome) = true ∧
    build_timestamp natParse natCombine ⟨some 0, some 1, some 2⟩ 3
        [[some "5", some "7", some "2"], [some "x", some "8", some "3"]] =
      [some 5, none] :=
  ⟨rfl, by decide, by
    rw [(build_timestamp_priority natParse natCombine ⟨some 0, some 1,
      some 2⟩ 3 [[some "5", some "7", some "2"],
      [some "x", some "8", some "3"]] 0 rfl (by decide)).1]
    decide⟩

/-- C4: a non-empty frame over which timestamp building yields not a
single instant makes the pipeline halt with the fatal
`timestampUnresolvable` signal instead of proceeding to an (empty)
snapshot. -/
theorem pipeline_fatal_on_unresolvable (parse : Cell → Option Nat)
    (combine : Cell → Cell → Option Nat) (tm : TimeMapping)
    (cm : CatMapping) (sel : CatSelection) (keys : List Nat) (now : Nat)
    (dr : DateRange) (ncols : Nat) (df : List Row) (_hne : df ≠ [])
    (hzero : (build_timestamp parse combine tm ncols df).countP
        (fun x => x.isSome) = 0) :
    runPipeline parse combine tm cm sel keys now dr ncols df =
      .error .timestampUnresolvable := by
  unfold runPipeline
  simp [hzero]

/-- C4 (witness): a one-row frame with no parseable column halts with the
fatal signal. -/
theorem pipeline_fatal_on_unresolvable_witness :
    ([[some "a"]] ≠ ([] : List Row)) ∧
    (build_timestamp natParse natCombine ⟨none, none, none⟩ 1
        [[some "a"]]).countP (fun x => x.isSome) = 0 ∧
    runPipeline natParse natCombine ⟨none, none, none⟩ ⟨none, none, none⟩
        ⟨[], [], []⟩ [0] 0 .last7Days 1 [[some "a"]] =
      .error .timestampUnresolvable :=
  ⟨by decide, by decide,
    pipeline_fatal_on_unresolvable natParse natCombine ⟨none, none, none⟩
      ⟨none, none, none⟩ ⟨[], [], []⟩ [0] 0 .last7Days 1 [[some "a"]]
      (by decide) (by decide)⟩

/-- Invariant of the fallback scan's fold: after scanning the first `n`
columns, either nothing scored and every scanned column has zero parse
count, or the accumulator holds the scanned column with the highest
positive parse count, earlier columns winning ties. -/
theorem scan_invariant (parse : Cell → Option Nat) (df : List Row) :
    ∀ n : Nat,
      ((List.range n).foldl (scanStep parse df) (none, -1) = (none, -1) ∧
        ∀ c, c < n →
          (parseCol parse df c).countP (fun x => x.isSome) = 0) ∨
      (∃ b, b < n ∧
        (List.range n).foldl (scanStep parse df) (none, -1) =
          (some (parseCol parse df b),
            ((parseCol parse df b).countP (fun x => x.isSome) : Int)) ∧
        0 < (parseCol parse df b).countP (fun x => x.isSome) ∧
        (∀ e, e < b → (parseCol parse df e).countP (fun x => x.isSome) <
          (parseCol parse df b).countP (fun x => x.isSome)) ∧
        (∀ e, e < n → (parseCol parse df e).countP (fun x => x.isSome) ≤
          (parseCol parse df b).countP (fun x => x.isSome))) := by
  intro n
  induction n with
  | zero => exact Or.inl ⟨rfl, fun c hc => absurd hc (Nat.not_lt_zero c)⟩
  | succ n ih =>
    rw [List.range_succ, List.foldl_append, List.foldl_cons, List.foldl_nil]
    rcases ih with ⟨hacc, hall⟩ | ⟨b, hb, hacc, hpos, hlt, hle⟩
    · rw [hacc]
      by_cases hp : 0 < (parseCol parse df n).countP (fun x => x.isSome)
      · right
        refine ⟨n, Nat.lt_succ_self n, ?_, hp, ?_, ?_⟩
        · unfold scanStep
          rw [if_pos]
          refine ⟨?_, ?_⟩
          · show (-1 : Int) <
              ((parseCol parse df n).countP (fun x => x.isSome) : Int)
            omega
          · show (0 : Int) <
              ((parseCol parse df n).countP (fun x => x.isSome) : Int)
            exact_mod_cast hp
        · intro e he
          rw [hall e he]
          exact hp
        · intro e he
          rcases Nat.lt_succ_iff_lt_or_eq.mp he with h | h
          · rw [hall e h]; exact Nat.zero_le _
          · subst h; exact Nat.le_refl _
      · left
        refine ⟨?_, ?_⟩
        · unfold scanStep
          rw [if_neg]
          intro hcond
          exact hp (by exact_mod_cast hcond.2)
        · intro c hc
          rcases Nat.lt_succ_iff_lt_or_eq.mp hc with h | h
          · exact hall c h
          · subst h; omega
    · rw [hacc]
      by_cases hgt : (parseCol parse df b).countP (fun x => x.isSome) <
          (parseCol parse df n).countP (fun x => x.isSome)
      · right
        refine ⟨n, Nat.lt_succ_self n, ?_, by omega, ?_, ?_⟩
        · unfold scanStep
          rw [if_pos]
          refine ⟨?_, ?_⟩
          · show ((parseCol parse df b).countP (fun x => x.isSome) : Int) <
              ((parseCol parse df n).countP (fun x => x.isSome) : Int)
            exact_mod_cast hgt
          · show (0 : Int) <
              ((parseCol parse df n).countP (fun x => x.isSome) : Int)
            have h0 : 0 < (parseCol parse df n).countP (fun x => x.isSome) :=
              by omega
            exact_mod_cast h0
        · intro e he
          exact Nat.lt_of_le_of_lt (hle e he) hgt
        · intro e he
          rcases Nat.lt_succ_iff_lt_or_eq.mp he with h | h
          · exact Nat.le_of_lt (Nat.lt_of_le_of_lt (hle e h) hgt)
          · subst h; exact Nat.le_refl _
      · right
        refine ⟨b, Nat.lt_succ_of_lt hb, ?_, hpos, hlt, ?_⟩
        · unfold scanStep
          rw [if_neg]
          intro hcond
          have h1 : ((parseCol parse df b).countP (fun x => x.isSome) : Int) <
              ((parseCol parse df n).countP (fun x => x.isSome) : Int) :=
            hcond.1
          exact hgt (by exact_mod_cast h1)
        · intro e he
          rcases Nat.lt_succ_iff_lt_or_eq.mp he with h | h
          · exact hle e h
          · subst h; omega

/-- C8: when none of the timestamp/date/time logical fields is mapped,
`build_timestamp` performs the fallback column scan, which bulk-parses
each column and selects the one with the highest count of successfully
parsed non-null values — an earlier column winning ties — and yields
all-null timestamps when no column yields any valid parse. -/
theorem build_timestamp_fallback_scan (parse : Cell → Option Nat)
    (combine : Cell → Cell → Option Nat) (m : TimeMapping) (ncols : Nat)
    (df : List Row) (hts : m.col_ts = none) (hdate : m.col_date = none)
    (_htime : m.col_time = none) :
    build_timestamp parse combine m ncols df =
      fallbackScan parse ncols df ∧
    FallbackSelects parse ncols df (fallbackScan parse ncols df) := by
  constructor
  · unfold build_timestamp
    rw [hts]
    unfold build_timestamp_rest
    rw [hdate]
  · constructor
    · intro hall
      unfold fallbackScan
      rcases scan_invariant parse df ncols with ⟨hacc, _⟩ |
        ⟨b, hb, _, hpos, _, _⟩
      · rw [hacc]
      · rw [hall b hb] at hpos
        exact absurd hpos (Nat.lt_irrefl 0)
    · intro c hc hp
      unfold fallbackScan
      rcases scan_invariant parse df ncols with ⟨_, hall⟩ |
        ⟨b, hb, hacc, hpos, hlt, hle⟩
      · rw [hall c hc] at hp
        exact absurd hp (Nat.lt_irrefl 0)
      · rw [hacc]
        exact ⟨b, hb, rfl, hpos, hlt, hle⟩

/-- C8 (witness): with no time fields mapped, a two-column frame in which
column 0 never parses and column 1 parses twice is timestamped from
column 1 by the fallback scan. -/
theorem build_timestamp_fallback_scan_witness :
    (⟨none, none, none⟩ : TimeMapping).col_ts = none ∧
    (⟨none, none, none⟩ : TimeMapping).col_date = none ∧
    (⟨none, none, none⟩ : TimeMapping).col_time = none ∧
    (build_timestamp natParse natCombine ⟨none, none, none⟩ 2
        [[some "a", some "7"], [some "b", some "9"]] =
      fallbackScan natParse 2
        [[some "a", some "7"], [some "b", some "9"]] ∧
      FallbackSelects natParse 2
        [[some "a", some "7"], [some "b", some "9"]]
        (fallbackScan natParse 2
          [[some "a", some "7"], [some "b", some "9"]])) ∧
    fallbackScan natParse 2 [[some "a", some "7"], [some "b", some "9"]] =
      [some 7, some 9] :=
  ⟨rfl, rfl, rfl,
    build_timestamp_fallback_scan natParse natCombine ⟨none, none, none⟩ 2
      [[some "a", some "7"], [some "b", some "9"]] rfl rfl rfl,
    by decide⟩

/-- `filterMap` with an everywhere-defined function keeps the length. -/
theorem length_filterMap_of_isSome {α β : Type} (f : α → Option β) :
    ∀ l : List α, (∀ a ∈ l, (f a).isSome = true) →
      (l.filterMap f).length = l.length
  | [], _ => rfl
  | a :: l, h => by
    rcases ho : f a with _ | b
    · exact absurd (h a (List.mem_cons_self a l)) (by simp [ho])
    · rw [List.filterMap_cons_some ho, List.length_cons, List.length_cons,
        length_filterMap_of_isSome f l
          (fun x hx => h x (List.mem_cons_of_mem a hx))]

/-- Looking a key up with `find?` in a list assembled keywise by
`filterMap` returns that key's element. -/
theorem find?_filterMap_keys {κ β : Type} [DecidableEq κ] (g : β → κ)
    (f : κ → Option β) :
    ∀ (ks : List κ) (k : κ),
      (∀ k' ∈ ks, ∀ r, f k' = some r → g r = k') →
      (∀ k' ∈ ks, (f k').isSome = true) → k ∈ ks →
      (ks.filterMap f).find? (fun r => g r = k) = f k
  | [], k, _, _, hk => absurd hk (List.not_mem_nil k)
  | k' :: rest, k, hg, hs, hk => by
    rcases ho : f k' with _ | r
    · exact absurd (hs k' (List.mem_cons_self _ _)) (by simp [ho])
    · rw [List.filterMap_cons_some ho]
      have hgr : g r = k' := hg k' (List.mem_cons_self _ _) r ho
      by_cases hkk : g r = k
      · rw [List.find?_cons_of_pos _ (by simp [hkk])]
        have hke : k = k' := by rw [← hkk, hgr]
        rw [hke, ho]
      · rw [List.find?_cons_of_neg _ (by simp [hkk])]
        have hne : k ≠ k' := fun he => hkk (by rw [hgr, he])
        have hkr : k ∈ rest := by
          rcases List.mem_cons.mp hk with he | hr2
          · exact absurd he hne
          · exact hr2
        exact find?_filterMap_keys g f rest k
          (fun a ha => hg a (List.mem_cons_of_mem _ ha))
          (fun a ha => hs a (List.mem_cons_of_mem _ ha)) hkr

/-- Inserting an element that is `tsLE`-below a whole list puts it in
front. -/
theorem orderedInsert_all_le (a : NRow) :
    ∀ m : List NRow, (∀ x ∈ m, tsLE a x) →
      m.orderedInsert tsLE a = a :: m
  | [], _ => rfl
  | c :: m, h => by
    rw [List.orderedInsert, if_pos (h c (List.mem_cons_self _ _))]

/-- Filtering after an ordered insert into a sorted list: the inserted
element survives exactly when it passes the filter, landing by order in
the filtered list. -/
theorem filter_orderedInsert (p : NRow → Bool) (a : NRow) :
    ∀ l : List NRow, l.Sorted tsLE →
      (l.orderedInsert tsLE a).filter p =
        if p a then (l.filter p).orderedInsert tsLE a else l.filter p
  | [], _ => by
    cases hpa : p a <;> simp [List.orderedInsert, List.filter, hpa]
  | b :: l, hs => by
    rcases List.sorted_cons.mp hs with ⟨hb, hl⟩
    by_cases hab : tsLE a b
    · rw [List.orderedInsert_of_le _ _ hab]
      cases hpa : p a
      · simp [List.filter_cons, hpa]
      · have hall : ∀ x ∈ (b :: l).filter p, tsLE a x := by
          intro x hx
          have hx' : x ∈ b :: l := List.mem_of_mem_filter hx
          rcases List.mem_cons.mp hx' with rfl | hxl
          · exact hab
          · exact IsTrans.trans a b x hab (hb x hxl)
        rw [if_pos rfl, orderedInsert_all_le a _ hall]
        simp [List.filter_cons, hpa]
    · rw [List.orderedInsert, if_neg hab]
      have ih := filter_orderedInsert p a l hl
      cases hpa : p a <;> cases hpb : p b <;>
        simp [List.filter_cons, hpa, hpb, ih, List.orderedInsert, hab]

/-- A filter of the stable insertion sort is the insertion sort of the
filter. -/
theorem filter_insertionSort (p : NRow → Bool) :
    ∀ l : List NRow,
      (l.insertionSort tsLE).filter p = (l.filter p).insertionSort tsLE
  | [] => rfl
  | a :: l => by
    rw [List.insertionSort,
      filter_orderedInsert p a _ (List.sorted_insertionSort tsLE l),
      filter_insertionSort p l]
    cases hpa : p a <;> simp [List.filter_cons, hpa, List.insertionSort]

/-- C1 (counterexample): a single row with a non-null timestamp but a
missing identity-key cell: the claim counts one distinct key value —
`none` forming an "unknown" group of its own — yet `groupby` drops the
null-keyed rows and the snapshot is empty. -/
theorem reduction_cardinality_null_key :
    (latest_per_device [0] [⟨[none], some 3⟩]).length ≠
      distinctKeyCount [0] [⟨[none], some 3⟩] := by decide

/-- C1 (amended): the snapshot holds exactly one row per distinct
identity-key value, over the rows with non-null timestamp, whose key
tuple has no missing component; rows with a missing key component are
dropped by `groupby` rather than grouped as an "unknown" key of their
own. -/
theorem reduction_cardinality (keys : List Nat) (rows : List NRow) :
    (latest_per_device keys rows).length =
      distinctValidKeyCount keys rows := by
  have hdef : latest_per_device keys rows =
      ((((rows.filter (fun r => r.ts.isSome)).insertionSort tsLE).map
        (keyOf keys)).dedup.filter keyValid).filterMap
        (fun k => (((rows.filter (fun r => r.ts.isSome)).insertionSort
          tsLE).filter (fun r => keyOf keys r = k)).getLast?) := rfl
  have hsome : ∀ k ∈ (((rows.filter (fun r => r.ts.isSome)).insertionSort
      tsLE).map (keyOf keys)).dedup.filter keyValid,
      ((((rows.filter (fun r => r.ts.isSome)).insertionSort
        tsLE).filter (fun r => keyOf keys r = k)).getLast?).isSome = true := by
    intro k hk
    have hk1 : k ∈ (((rows.filter (fun r => r.ts.isSome)).insertionSort
        tsLE).map (keyOf keys)).dedup := (List.mem_filter.mp hk).1
    obtain ⟨r, hr, hrk⟩ := List.mem_map.mp (List.mem_dedup.mp hk1)
    have hrf : r ∈ ((rows.filter (fun r => r.ts.isSome)).insertionSort
        tsLE).filter (fun r => keyOf keys r = k) :=
      List.mem_filter.mpr ⟨hr, by simp [hrk]⟩
    rw [List.getLast?_isSome]
    exact List.ne_nil_of_mem hrf
  rw [hdef, length_filterMap_of_isSome _ _ hsome]
  unfold distinctValidKeyCount
  exact ((((List.perm_insertionSort tsLE _).map (keyOf keys)).dedup).filter
    keyValid).length_eq

/-- C2 (counterexample): three rows with strictly increasing non-null
timestamps share the identity-key value `[none]`; the claim requires the
snapshot row for that key to be the T3 row, but `groupby` drops the
null-keyed group, so the snapshot holds no row for it at all. -/
theorem reduction_recency_null_key :
    snapshotRow [0] [⟨[none], some 1⟩, ⟨[none], some 2⟩, ⟨[none], some 3⟩]
      [none] ≠ some ⟨[none], some 3⟩ := by decide

/-- C2 (amended): for an identity-key value whose tuple has no missing
component, the snapshot row is the last element of the group's rows
sorted by timestamp ascending (the deterministic tie-break rule); in
particular, for a group of three rows with strictly increasing
timestamps T1 < T2 < T3 it is exactly the T3 row, every field included. -/
theorem reduction_recency (keys : List Nat) (rows : List NRow)
    (k : List Cell) (hval : keyValid k = true) :
    snapshotRow keys rows k =
      ((rows.filter (fun r => r.ts.isSome &&
        decide (keyOf keys r = k))).insertionSort tsLE).getLast? ∧
    ∀ r1 r2 r3 t1 t2 t3,
      (rows.filter (fun r => r.ts.isSome &&
        decide (keyOf keys r = k))).Perm [r1, r2, r3] →
      r1.ts = some t1 → r2.ts = some t2 → r3.ts = some t3 →
      t1 < t2 → t2 < t3 →
      snapshotRow keys rows k = some r3 := by
  have hgrp : rows.filter (fun r => r.ts.isSome &&
      decide (keyOf keys r = k)) =
      (rows.filter (fun r => r.ts.isSome)).filter
        (fun r => keyOf keys r = k) := by
    rw [List.filter_filter]
    exact List.filter_congr fun a _ => Bool.and_comm _ _
  have hmain : snapshotRow keys rows k =
      (((rows.filter (fun r => r.ts.isSome)).insertionSort tsLE).filter
        (fun r => keyOf keys r = k)).getLast? := by
    by_cases hk : k ∈ (((rows.filter (fun r => r.ts.isSome)).insertionSort
        tsLE).map (keyOf keys)).dedup.filter keyValid
    · have hg : ∀ k' ∈ (((rows.filter (fun r =>
          r.ts.isSome)).insertionSort tsLE).map
          (keyOf keys)).dedup.filter keyValid, ∀ r,
          (((rows.filter (fun r => r.ts.isSome)).insertionSort
            tsLE).filter (fun r => keyOf keys r = k')).getLast? = some r →
          keyOf keys r = k' := by
        intro k' _ r hr
        obtain ⟨hne, heq⟩ := List.mem_getLast?_eq_getLast
          (show r ∈ _ from hr)
        have hrmem : r ∈ ((rows.filter (fun r =>
            r.ts.isSome)).insertionSort tsLE).filter
            (fun r => keyOf keys r = k') := by
          rw [heq]; exact List.getLast_mem hne
        exact of_decide_eq_true (List.mem_filter.mp hrmem).2
      have hs : ∀ k' ∈ (((rows.filter (fun r =>
          r.ts.isSome)).insertionSort tsLE).map
          (keyOf keys)).dedup.filter keyValid,
          ((((rows.filter (fun r => r.ts.isSome)).insertionSort
            tsLE).filter (fun r => keyOf keys r = k')).getLast?).isSome =
            true := by
        intro k' hk'
        obtain ⟨r, hr, hrk⟩ := List.mem_map.mp
          (List.mem_dedup.mp (List.mem_filter.mp hk').1)
        rw [List.getLast?_isSome]
        exact List.ne_nil_of_mem
          (List.mem_filter.mpr ⟨hr, by simp [hrk]⟩)
      exact find?_filterMap_keys (keyOf keys) _ _ k hg hs hk
    · have hnone : (((rows.filter (fun r => r.ts.isSome)).insertionSort
          tsLE).filter (fun r => keyOf keys r = k)) = [] := by
        rw [List.filter_eq_nil_iff]
        intro r hr hcontra
        exact hk (List.mem_filter.mpr
          ⟨List.mem_dedup.mpr (List.mem_map.mpr
            ⟨r, hr, of_decide_eq_true hcontra⟩), hval⟩)
      rw [hnone]
      apply List.find?_eq_none.mpr
      intro x hx
      obtain ⟨k', hk', hfk'⟩ := List.mem_filterMap.mp hx
      obtain ⟨hne, heq⟩ := List.mem_getLast?_eq_getLast
        (show x ∈ _ from hfk')
      have hxmem : x ∈ ((rows.filter (fun r =>
          r.ts.isSome)).insertionSort tsLE).filter
          (fun r => keyOf keys r = k') := by
        rw [heq]; exact List.getLast_mem hne
      have hxk : keyOf keys x = k' :=
        of_decide_eq_true (List.mem_filter.mp hxmem).2
      simp only [decide_eq_true_eq]
      intro hxkk
      exact hk (hxkk ▸ hxk ▸ hk')
  have hpart1 : snapshotRow keys rows k =
      ((rows.filter (fun r => r.ts.isSome &&
        decide (keyOf keys r = k))).insertionSort tsLE).getLast? := by
    rw [hmain, hgrp, filter_insertionSort]
  refine ⟨hpart1, ?_⟩
  intro r1 r2 r3 t1 t2 t3 hperm ht1 ht2 ht3 h12 h23
  rw [hpart1]
  have hLperm : ((rows.filter (fun r => r.ts.isSome &&
      decide (keyOf keys r = k))).insertionSort tsLE).Perm [r1, r2, r3] :=
    (List.perm_insertionSort tsLE _).trans hperm
  have hLne : (rows.filter (fun r => r.ts.isSome &&
      decide (keyOf keys r = k))).insertionSort tsLE ≠ [] := by
    intro h
    have := hLperm.length_eq
    rw [h] at this
    simp at this
  have hsorted : ((rows.filter (fun r => r.ts.isSome &&
      decide (keyOf keys r = k))).insertionSort tsLE).Sorted tsLE :=
    List.sorted_insertionSort tsLE _
  rw [List.getLast?_eq_getLast_of_ne_nil hLne]
  have hcmem := hLperm.mem_iff.mp (List.getLast_mem hLne)
  have hr3mem : r3 ∈ (rows.filter (fun r => r.ts.isSome &&
      decide (keyOf keys r = k))).insertionSort tsLE :=
    hLperm.mem_iff.mpr (by simp)
  have hr3le : r3 = ((rows.filter (fun r => r.ts.isSome &&
      decide (keyOf keys r = k))).insertionSort tsLE).getLast hLne ∨
      tsLE r3 (((rows.filter (fun r => r.ts.isSome &&
        decide (keyOf keys r = k))).insertionSort tsLE).getLast hLne) := by
    have hdecomp := List.dropLast_append_getLast hLne
    rw [← hdecomp] at hr3mem
    rcases List.mem_append.mp hr3mem with hx1 | hx2
    · right
      have hp : List.Pairwise tsLE ((rows.filter (fun r => r.ts.isSome &&
          decide (keyOf keys r = k))).insertionSort tsLE) := hsorted
      conv at hp => rw [← hdecomp]
      exact (List.pairwise_append.mp hp).2.2 r3 hx1 _
        (List.mem_singleton_self _)
    · left
      exact List.mem_singleton.mp hx2
  rcases List.mem_cons.mp hcmem with hc | hcmem2
  · exfalso
    rcases hr3le with heq | hle
    · have : t3 = t1 := by
        have h31 : r3.ts = r1.ts := by rw [heq, hc]
        rw [ht1, ht3] at h31
        exact Option.some_injective _ h31
      omega
    · rw [hc] at hle
      unfold tsLE at hle
      rw [ht1, ht3] at hle
      simp at hle
      omega
  rcases List.mem_cons.mp hcmem2 with hc | hcmem3
  · exfalso
    rcases hr3le with heq | hle
    · have : t3 = t2 := by
        have h32 : r3.ts = r2.ts := by rw [heq, hc]
        rw [ht2, ht3] at h32
        exact Option.some_injective _ h32
      omega
    · rw [hc] at hle
      unfold tsLE at hle
      rw [ht2, ht3] at hle
      simp at hle
      omega
  · have hc : ((rows.filter (fun r => r.ts.isSome &&
        decide (keyOf keys r = k))).insertionSort tsLE).getLast hLne = r3 :=
      List.mem_singleton.mp (by simpa using hcmem3)
    rw [hc]

/-- C2 (witness): three rows with the valid key `[some "a"]` and
timestamps 1 < 2 < 3; the snapshot row for that key is the third row. -/
theorem reduction_recency_witness :
    keyValid [some "a"] = true ∧
    snapshotRow [0]
      [⟨[some "a"], some 1⟩, ⟨[some "a"], some 2⟩, ⟨[some "a"], some 3⟩]
      [some "a"] = some ⟨[some "a"], some 3⟩ :=
  ⟨by decide,
    (reduction_recency [0]
      [⟨[some "a"], some 1⟩, ⟨[some "a"], some 2⟩, ⟨[some "a"], some 3⟩]
      [some "a"] (by decide)).2
      ⟨[some "a"], some 1⟩ ⟨[some "a"], some 2⟩ ⟨[some "a"], some 3⟩
      1 2 3
      (by
        have h : ([⟨[some "a"], some 1⟩, ⟨[some "a"], some 2⟩,
            ⟨[some "a"], some 3⟩] : List NRow).filter
            (fun r => r.ts.isSome && decide (keyOf [0] r = [some "a"])) =
            [⟨[some "a"], some 1⟩, ⟨[some "a"], some 2⟩,
              ⟨[some "a"], some 3⟩] := by decide
        rw [h])
      rfl rfl rfl (by decide) (by decide)⟩

end ProjectPing
